import Mathlib

/-!
Verification of the Process Mining Studio frontend (src/frontend/src/App.jsx)
against its natural-language specification.

The React component state and its event handlers are shallowly embedded as a
state machine: `UIState` mirrors the `useState` hooks, `Event` the settled user
interactions (upload form submission, mapping selects, analysis checkboxes,
analyze button), `step` the handlers, and `validEvent` the guards the rendered
UI imposes (select options, disabled buttons, checkbox keys).

The backend (dataset store, schema mapper, orchestrator, analyses) is not part
of the sources; where a claim depends on it, definitions are modelled from the
spec and carry a doc comment saying so.
-/

namespace PMStudio

/-- The column mapping held in the `mapping` useState hook (App.jsx line 21):
four string fields, empty string meaning unset. -/
structure Mapping where
  case_id : String
  activity : String
  timestamp : String
  resource : String
deriving DecidableEq, Repr

/-- A preview row: association of column names to (stringified) cell values. -/
def Row : Type := List (String × String)

instance : DecidableEq Row := fun a b => List.hasDecEq a b

/-- The full component state of `App` (App.jsx lines 17-25): one field per
`useState` hook, except `file` (the chosen file object, irrelevant to the
claims). -/
structure UIState where
  fileId : String
  columns : List String
  preview : List Row
  mapping : Mapping
  analyses : List String
  result : Option String
  error : String
  loading : Bool
deriving DecidableEq

/-- Settled outcome of a `fetch` round trip: either the parsed response body,
or the thrown error's message (network failure or non-ok response, after
`parseError`). -/
inductive FetchResult (α : Type) where
  | ok (data : α)
  | err (msg : String)
deriving DecidableEq

/-- Body of a successful `/upload` response (App.jsx lines 57-60). -/
structure UploadData where
  file_id : String
  columns : List String
  preview : List Row
deriving DecidableEq

/-- JavaScript `a || b` on strings: the empty string is falsy. -/
def jsOr (a b : String) : String := if a = "" then b else a

/-- JavaScript `columns[i]` followed by truthiness use: out-of-range access
yields `undefined`, which the surrounding `|| ''` turns into the empty
string. -/
def colAt (cols : List String) (i : Nat) : String := (cols.get? i).getD ""

/-- The `setMapping` updater run on upload success (App.jsx lines 61-66):
each required field keeps its previous value when non-empty, otherwise is
auto-filled positionally from the returned columns; `resource` is
`prev.resource || ''`. -/
def autoFillMapping (prev : Mapping) (cols : List String) : Mapping where
  case_id := jsOr prev.case_id (jsOr (colAt cols 0) "")
  activity := jsOr prev.activity (jsOr (colAt cols 1) "")
  timestamp := jsOr prev.timestamp (jsOr (colAt cols 2) "")
  resource := jsOr prev.resource ""

/-- `canAnalyze` (App.jsx lines 27-30): `fileId && mapping.case_id &&
mapping.activity && mapping.timestamp && analyses.length > 0`, with string
truthiness being non-emptiness. -/
def canAnalyze (s : UIState) : Bool :=
  (s.fileId != "") && (s.mapping.case_id != "") && (s.mapping.activity != "")
    && (s.mapping.timestamp != "") && decide (0 < s.analyses.length)

/-- The state after the `onUpload` handler settles (App.jsx lines 42-72):
`error`, `result`, `loading` are reset up front; on success the dataset state
and the mapping auto-fill are installed; on failure only the error message is
set; `finally` clears `loading`. -/
def onUploadSettle (s : UIState) : FetchResult UploadData → UIState
  | FetchResult.ok d =>
      { s with fileId := d.file_id, columns := d.columns, preview := d.preview,
               mapping := autoFillMapping s.mapping d.columns,
               result := none, error := "", loading := false }
  | FetchResult.err m =>
      { s with result := none, error := "Upload impossible: " ++ m, loading := false }

/-- The state after the `runAnalysis` handler settles (App.jsx lines 74-93). -/
def runAnalysisSettle (s : UIState) : FetchResult String → UIState
  | FetchResult.ok body =>
      { s with result := some body, error := "", loading := false }
  | FetchResult.err m =>
      { s with result := none, error := "Analyse impossible: " ++ m, loading := false }

/-- The four keys of the mapping grid (App.jsx lines 117-122). -/
inductive FieldKey where
  | caseId
  | activity
  | timestamp
  | resource
deriving DecidableEq

/-- `{...prev, [key]: value}` for one select (App.jsx line 125). -/
def setField (m : Mapping) : FieldKey → String → Mapping
  | FieldKey.caseId, v => { m with case_id := v }
  | FieldKey.activity, v => { m with activity := v }
  | FieldKey.timestamp, v => { m with timestamp := v }
  | FieldKey.resource, v => { m with resource := v }

/-- The keys of `analysisLabels` (App.jsx lines 5-9): the checkboxes rendered,
i.e. the Analysis Registry's known names as the frontend knows them. -/
def registryNames : List String := ["discovery", "statistics", "variants"]

/-- A settled user interaction with the component. -/
inductive Event where
  | upload (r : FetchResult UploadData)
  | select (f : FieldKey) (v : String)
  | toggle (k : String)
  | analyze (r : FetchResult String)
deriving DecidableEq

/-- State transition for one settled event: `upload` and `analyze` run the
handlers; `select` runs the mapping updater (App.jsx line 125); `toggle` runs
the checkbox updater (App.jsx lines 147-151): append the key when it becomes
checked, filter it out when unchecked (checked state is `analyses.includes(key)`). -/
def step (s : UIState) : Event → UIState
  | Event.upload r => onUploadSettle s r
  | Event.select f v => { s with mapping := setField s.mapping f v }
  | Event.toggle k =>
      if k ∈ s.analyses then
        { s with analyses := s.analyses.filter (fun a => decide (a ≠ k)) }
      else
        { s with analyses := s.analyses ++ [k] }
  | Event.analyze r => runAnalysisSettle s r

/-- The guards the rendered UI imposes on each event: the upload button is
disabled while loading (App.jsx line 106); the mapping selects exist only when
columns are shown and offer exactly the empty option and the dataset's columns
(App.jsx lines 113-132); the checkboxes exist only for the registry names
(App.jsx line 142); the analyze button is disabled unless `canAnalyze` and not
loading (App.jsx line 157). -/
def validEvent (s : UIState) : Event → Bool
  | Event.upload _ => !s.loading
  | Event.select _ v => (!s.columns.isEmpty) && (v == "" || s.columns.contains v)
  | Event.toggle k => registryNames.contains k
  | Event.analyze _ => canAnalyze s && !s.loading

/-- Run a sequence of events from a state. -/
def runFrom (s : UIState) : List Event → UIState
  | [] => s
  | e :: t => runFrom (step s e) t

/-- All events of the sequence pass their UI guard at the state they fire in. -/
def validFrom (s : UIState) : List Event → Bool
  | [] => true
  | e :: t => validEvent s e && validFrom (step s e) t

/-- The initial hook values (App.jsx lines 17-25). -/
def initState : UIState where
  fileId := ""
  columns := []
  preview := []
  mapping := { case_id := "", activity := "", timestamp := "", resource := "" }
  analyses := ["discovery", "statistics", "variants"]
  result := none
  error := ""
  loading := false

/-! ### Spec-modelled backend definitions

The backend is absent from the sources; the following definitions are modelled
from the spec (Dataset Store §4.1, Analysis Registry §4.3 `variants`, Analysis
Orchestrator §4.4). -/

/-- Modelled from the spec: the Dataset Store's `put` stores a capped preview,
the first 20 rows, which `Upload` returns (spec §4.1, §6); the backend code is
not under src/. -/
def uploadPreview (rows : List Row) : List Row := rows.take 20

/-- The rows the preview table renders (App.jsx lines 174-182): one `tr` per
element of the `preview` state, with no further truncation. -/
def renderedPreviewRows (s : UIState) : List Row := s.preview

/-- First occurrences of a list, in order of first appearance, accumulator
passing kept structural so it evaluates in the kernel. -/
def firstsAux {α : Type} [DecidableEq α] (acc : List α) : List α → List α
  | [] => acc.reverse
  | c :: rest => if c ∈ acc then firstsAux acc rest else firstsAux (c :: acc) rest

/-- The distinct elements of a list in first-observed order. -/
def firsts {α : Type} [DecidableEq α] (l : List α) : List α := firstsAux [] l

/-- An event log restricted to what `variants` needs: `(case, activity)` pairs
in original row order (spec §3, Event Log). -/
def VLog : Type := List (String × String)

/-- Modelled from the spec: the activity sequence of one case, in row order
(spec §4.2: event order preserves row order; §4.3 `variants`). -/
def variantOf (log : VLog) (c : String) : List String :=
  (log.filter (fun e => decide (e.1 = c))).map Prod.snd

/-- Modelled from the spec: the distinct variants in first-observed order,
each with the count of cases following it (spec §4.3 `variants`); the backend
code is not under src/. -/
def variantEntries (log : VLog) : List (List String × Nat) :=
  let cs := firsts (log.map Prod.fst)
  let vs := firsts (cs.map (variantOf log))
  vs.map (fun v => (v, (cs.filter (fun c => decide (variantOf log c = v))).length))

/-- Ordering on indexed variant entries `(firstObservedIndex, (variant,
cases))`: higher case count first, ties by first-observed index. -/
def vle (a b : Nat × (List String × Nat)) : Prop :=
  b.2.2 < a.2.2 ∨ (a.2.2 = b.2.2 ∧ a.1 ≤ b.1)

instance : DecidableRel vle := fun a b => by unfold vle; infer_instance

instance : IsTotal (Nat × (List String × Nat)) vle :=
  ⟨fun a b => by unfold vle; omega⟩

instance : IsTrans (Nat × (List String × Nat)) vle :=
  ⟨fun a b c h1 h2 => by unfold vle at h1 h2 ⊢; omega⟩

/-- Strict version of `vle`: descending case count, ties strictly by
first-observed order. -/
def vlt (a b : Nat × (List String × Nat)) : Prop :=
  b.2.2 < a.2.2 ∨ (a.2.2 = b.2.2 ∧ a.1 < b.1)

/-- Modelled from the spec: the `variants` analysis, keeping first-observed
indices: entries sorted by descending case count with ties in first-observed
order, truncated to the top 20 (spec §4.3); the backend code is not under
src/. -/
def variantsTopIdx (log : VLog) : List (Nat × (List String × Nat)) :=
  (List.insertionSort vle (variantEntries log).enum).take 20

/-- Modelled from the spec: the `variants` payload of the analyze response,
as the frontend receives it in `result.variants`. -/
def backendVariants (log : VLog) : List (List String × Nat) :=
  (variantsTopIdx log).map Prod.snd

/-- The entries the Top variants card renders (App.jsx line 206):
`result.variants.slice(0, 5)`. -/
def renderedVariants (payload : List (List String × Nat)) : List (List String × Nat) :=
  payload.take 5

/-- Outcome of invoking one analysis, failures caught (spec §4.4 step 3). -/
inductive AnalysisOutcome where
  | ok (payload : String)
  | failed (msg : String)
deriving DecidableEq

/-- Whether the outcome is a success. -/
def AnalysisOutcome.isOk : AnalysisOutcome → Bool
  | AnalysisOutcome.ok _ => true
  | AnalysisOutcome.failed _ => false

/-- Modelled from the spec: Analysis Orchestrator step 3 (spec §4.4): for each
requested name, in order, invoke the analysis on the validated event log and
record its caught outcome; `run1` abstracts registry lookup plus invocation on
the event log of the request; the backend code is not under src/. -/
def orchestrate (run1 : String → AnalysisOutcome) (names : List String) :
    List (String × AnalysisOutcome) :=
  names.map (fun n => (n, run1 n))

/-- Modelled from the spec: Analysis Orchestrator step 4 (spec §4.4): overall
status is `ok` when all requested analyses succeeded, `partial` when some did,
`failed` when none did; the backend code is not under src/. -/
def overallStatus (results : List (String × AnalysisOutcome)) : String :=
  if results.all (fun r => r.2.isOk) then "ok"
  else if results.any (fun r => r.2.isOk) then "partial"
  else "failed"

/-! ### Predicates and concrete inputs used by the theorems -/

/-- Every non-empty mapping field names a column of the current dataset. -/
def MappingGood (s : UIState) : Prop :=
  (s.mapping.case_id = "" ∨ s.mapping.case_id ∈ s.columns) ∧
  (s.mapping.activity = "" ∨ s.mapping.activity ∈ s.columns) ∧
  (s.mapping.timestamp = "" ∨ s.mapping.timestamp ∈ s.columns) ∧
  (s.mapping.resource = "" ∨ s.mapping.resource ∈ s.columns)

/-- No dataset has been loaded yet and no mapping field is set. -/
def MappingClean (s : UIState) : Prop :=
  s.mapping.case_id = "" ∧ s.mapping.activity = "" ∧ s.mapping.timestamp = "" ∧
  s.mapping.resource = "" ∧ s.columns = []

/-- Whether an event is a successful upload (the only event that replaces the
dataset). -/
def isUploadOk : Event → Bool
  | Event.upload (FetchResult.ok _) => true
  | _ => false

/-- Trace: one successful upload of a three-column dataset. -/
def oneUploadTrace : List Event :=
  [Event.upload (FetchResult.ok ⟨"id1", ["A", "B", "C"], []⟩)]

/-- Trace: a successful upload followed by a second successful upload of a
dataset with entirely different columns. -/
def secondUploadTrace : List Event :=
  [Event.upload (FetchResult.ok ⟨"id1", ["A", "B", "C"], []⟩),
   Event.upload (FetchResult.ok ⟨"id2", ["X", "Y", "Z"], []⟩)]

/-- Trace: a successful upload, then the user picks for `activity` the same
column the auto-fill put into `case_id`. -/
def duplicateSelectTrace : List Event :=
  [Event.upload (FetchResult.ok ⟨"id1", ["A", "B", "C"], []⟩),
   Event.select FieldKey.activity "A"]

/-- An event log with six cases, each following its own distinct
single-activity variant. -/
def log6 : VLog :=
  [("c1", "a"), ("c2", "b"), ("c3", "c"), ("c4", "d"), ("c5", "e"), ("c6", "f")]

/-- A per-analysis runner where `statistics` fails and every other analysis
succeeds. -/
def run1W : String → AnalysisOutcome :=
  fun n => if n = "statistics" then AnalysisOutcome.failed "boom" else AnalysisOutcome.ok "res"

/-- Mapping state used to exercise the auto-fill: `activity` and `resource`
already set by the user, `case_id` and `timestamp` still empty. -/
def prevW : Mapping := { case_id := "", activity := "x", timestamp := "", resource := "r" }

/-- A two-column dataset, too short to auto-fill `timestamp`. -/
def colsW : List String := ["A", "B"]

/-! ### Helper lemmas -/

/-- Unfolding of `canAnalyze` into the five propositional conditions. -/
theorem canAnalyze_char (s : UIState) :
    canAnalyze s = true ↔
      s.fileId ≠ "" ∧ s.mapping.case_id ≠ "" ∧ s.mapping.activity ≠ "" ∧
      s.mapping.timestamp ≠ "" ∧ s.analyses ≠ [] := by
  simp [canAnalyze, List.length_pos]
  tauto

/-- JavaScript `a || ''` is `a`. -/
theorem jsOr_empty_right (a : String) : jsOr a "" = a := by
  unfold jsOr
  split
  next h => exact h.symm
  next => rfl

/-- JavaScript `'' || b` is `b`. -/
theorem jsOr_empty_left (b : String) : jsOr "" b = b := by
  simp [jsOr]

/-- A positional column access yields the empty string or an actual column. -/
theorem colAt_eq_or_mem (cols : List String) (i : Nat) :
    colAt cols i = "" ∨ colAt cols i ∈ cols := by
  unfold colAt
  cases h : cols.get? i with
  | none => exact Or.inl rfl
  | some c => exact Or.inr (by simpa using List.get?_mem h)

/-- The error message built by the `runAnalysis` catch branch is never
empty. -/
theorem analyse_error_ne (m : String) : "Analyse impossible: " ++ m ≠ "" := by
  intro h
  have h2 := congrArg String.length h
  rw [String.length_append] at h2
  have h3 : ("Analyse impossible: ").length = 20 := rfl
  have h4 : ("" : String).length = 0 := rfl
  omega

/-- One auto-filled field: kept when previously non-empty, otherwise filled
from the column at the given index when it exists, the empty string when the
dataset is too short. -/
theorem jsOr_colAt (p : String) (cols : List String) (i : Nat) :
    (p ≠ "" → jsOr p (jsOr (colAt cols i) "") = p) ∧
    (p = "" →
      (∀ h : i < cols.length, jsOr p (jsOr (colAt cols i) "") = cols.get ⟨i, h⟩) ∧
      (cols.length ≤ i → jsOr p (jsOr (colAt cols i) "") = "")) := by
  constructor
  · intro hp
    show jsOr p _ = p
    unfold jsOr
    rw [if_neg hp]
  · intro hp
    subst hp
    rw [jsOr_empty_left, jsOr_empty_right]
    constructor
    · intro h
      unfold colAt
      rw [List.get?_eq_get h]
      rfl
    · intro h
      unfold colAt
      rw [List.get?_eq_none.mpr h]
      rfl

/-! ### Claim theorems -/

/-- C1: for every UI state, the analyze action is enabled (`canAnalyze` is
true) if and only if a dataset id is present, the three required mapping
fields `case_id`, `activity`, `timestamp` are non-empty strings, and the
selected analyses list is non-empty. -/
theorem canAnalyze_iff_required_inputs (s : UIState) :
    canAnalyze s = true ↔
      s.fileId ≠ "" ∧ s.mapping.case_id ≠ "" ∧ s.mapping.activity ≠ "" ∧
      s.mapping.timestamp ≠ "" ∧ s.analyses ≠ [] :=
  canAnalyze_char s

/-- C6: the preview rendered after a successful upload is exactly the first 20
rows of the uploaded table (the Dataset Store preview cap, modelled from the
spec) and the preview table never renders more than 20 rows. -/
theorem upload_preview_first20_rendered (s : UIState) (id : String)
    (cols : List String) (rows : List Row) :
    renderedPreviewRows
        (onUploadSettle s (FetchResult.ok ⟨id, cols, uploadPreview rows⟩)) = rows.take 20 ∧
    (renderedPreviewRows
        (onUploadSettle s (FetchResult.ok ⟨id, cols, uploadPreview rows⟩))).length ≤ 20 := by
  constructor
  · rfl
  · show (rows.take 20).length ≤ 20
    rw [List.length_take]
    exact Nat.min_le_left _ _

/-- C8: after a successful upload, a previously empty required field is
auto-filled positionally from the returned columns (`case_id` from column 0,
`activity` from column 1, `timestamp` from column 2), falling back to the
empty string when the dataset has fewer columns; a field already set
non-empty is kept; `resource` is never auto-filled. -/
theorem upload_autofill_mapping (prev : Mapping) (cols : List String) :
    ((prev.case_id ≠ "" → (autoFillMapping prev cols).case_id = prev.case_id) ∧
      (prev.case_id = "" →
        (∀ h : 0 < cols.length, (autoFillMapping prev cols).case_id = cols.get ⟨0, h⟩) ∧
        (cols.length ≤ 0 → (autoFillMapping prev cols).case_id = ""))) ∧
    ((prev.activity ≠ "" → (autoFillMapping prev cols).activity = prev.activity) ∧
      (prev.activity = "" →
        (∀ h : 1 < cols.length, (autoFillMapping prev cols).activity = cols.get ⟨1, h⟩) ∧
        (cols.length ≤ 1 → (autoFillMapping prev cols).activity = ""))) ∧
    ((prev.timestamp ≠ "" → (autoFillMapping prev cols).timestamp = prev.timestamp) ∧
      (prev.timestamp = "" →
        (∀ h : 2 < cols.length, (autoFillMapping prev cols).timestamp = cols.get ⟨2, h⟩) ∧
        (cols.length ≤ 2 → (autoFillMapping prev cols).timestamp = ""))) ∧
    (autoFillMapping prev cols).resource = prev.resource :=
  ⟨jsOr_colAt prev.case_id cols 0, jsOr_colAt prev.activity cols 1,
   jsOr_colAt prev.timestamp cols 2, jsOr_empty_right _⟩

/-- C8 witness: with `activity` and `resource` already set and two columns
returned, `case_id` is auto-filled from the first column, `activity` and
`resource` are kept, and `timestamp` falls back to the empty string. -/
theorem upload_autofill_mapping_witness :
    (autoFillMapping prevW colsW).case_id = "A" ∧
    (autoFillMapping prevW colsW).activity = "x" ∧
    (autoFillMapping prevW colsW).timestamp = "" ∧
    (autoFillMapping prevW colsW).resource = "r" :=
  ⟨((upload_autofill_mapping prevW colsW).1.2 rfl).1 (by decide),
   (upload_autofill_mapping prevW colsW).2.1.1 (by decide),
   ((upload_autofill_mapping prevW colsW).2.2.1.2 rfl).2 (by decide),
   (upload_autofill_mapping prevW colsW).2.2.2⟩

/-- C9: when an upload request fails, `fileId`, `columns`, `preview` and
`mapping` keep their prior values; `result` is cleared to `null` and the
error message is set, prefixed with `Upload impossible:`. -/
theorem upload_failure_preserves_dataset_state (s : UIState) (m : String) :
    (onUploadSettle s (FetchResult.err m)).fileId = s.fileId ∧
    (onUploadSettle s (FetchResult.err m)).columns = s.columns ∧
    (onUploadSettle s (FetchResult.err m)).preview = s.preview ∧
    (onUploadSettle s (FetchResult.err m)).mapping = s.mapping ∧
    (onUploadSettle s (FetchResult.err m)).result = none ∧
    (onUploadSettle s (FetchResult.err m)).error = "Upload impossible: " ++ m ∧
    (onUploadSettle s (FetchResult.err m)).loading = false :=
  ⟨rfl, rfl, rfl, rfl, rfl, rfl, rfl⟩

/-- C10: after `runAnalysis` settles, exactly one of two states holds: the
parsed response body is stored in `result` and `error` is the empty string, or
`result` is `null` and `error` holds a non-empty message prefixed with
`Analyse impossible:`; `loading` is false in both cases. -/
theorem analysis_settle_dichotomy (s : UIState) (r : FetchResult String) :
    (runAnalysisSettle s r).loading = false ∧
    (((∃ b, r = FetchResult.ok b ∧ (runAnalysisSettle s r).result = some b) ∧
        (runAnalysisSettle s r).error = "") ∨
      ((runAnalysisSettle s r).result = none ∧
        (∃ m, r = FetchResult.err m ∧
          (runAnalysisSettle s r).error = "Analyse impossible: " ++ m) ∧
        (runAnalysisSettle s r).error ≠ "")) ∧
    ¬(((∃ b, r = FetchResult.ok b ∧ (runAnalysisSettle s r).result = some b) ∧
          (runAnalysisSettle s r).error = "") ∧
        ((runAnalysisSettle s r).result = none ∧
          (∃ m, r = FetchResult.err m ∧
            (runAnalysisSettle s r).error = "Analyse impossible: " ++ m) ∧
          (runAnalysisSettle s r).error ≠ "")) := by
  cases r with
  | ok b =>
      refine ⟨rfl, Or.inl ⟨⟨b, rfl, rfl⟩, rfl⟩, ?_⟩
      rintro ⟨-, hnone, -, -⟩
      exact Option.noConfusion hnone
  | err m =>
      refine ⟨rfl, Or.inr ⟨rfl, ⟨m, rfl, rfl⟩, analyse_error_ne m⟩, ?_⟩
      rintro ⟨⟨⟨b, hb, -⟩, -⟩, -⟩
      exact FetchResult.noConfusion hb

/-- C10 witness: a concrete failed analyze round trip lands in the failure
state of the dichotomy. -/
theorem analysis_settle_dichotomy_witness :
    (runAnalysisSettle initState (FetchResult.err "boom")).loading = false :=
  (analysis_settle_dichotomy initState (FetchResult.err "boom")).1

/-! ### Reachability invariants of the component state -/

/-- A clean state satisfies the mapping-columns invariant vacuously. -/
theorem good_of_clean (s : UIState) (h : MappingClean s) : MappingGood s :=
  ⟨Or.inl h.1, Or.inl h.2.1, Or.inl h.2.2.1, Or.inl h.2.2.2.1⟩

/-- Every event other than a successful upload preserves the mapping-columns
invariant: the selects only offer the empty option and actual columns, and
the other handlers leave `mapping` and `columns` alone. -/
theorem step_good_of_not_uploadOk (s : UIState) (e : Event)
    (he : isUploadOk e = false) (hv : validEvent s e = true)
    (hg : MappingGood s) : MappingGood (step s e) := by
  cases e with
  | upload r =>
      cases r with
      | ok d => simp [isUploadOk] at he
      | err m => exact hg
  | select f v =>
      have hvv : v = "" ∨ v ∈ s.columns := by
        simp [validEvent] at hv
        tauto
      obtain ⟨h1, h2, h3, h4⟩ := hg
      cases f with
      | caseId => exact ⟨hvv, h2, h3, h4⟩
      | activity => exact ⟨h1, hvv, h3, h4⟩
      | timestamp => exact ⟨h1, h2, hvv, h4⟩
      | resource => exact ⟨h1, h2, h3, hvv⟩
  | toggle k =>
      show MappingGood (step s (Event.toggle k))
      simp only [step]
      split <;> exact hg
  | analyze r =>
      cases r with
      | ok b => exact hg
      | err m => exact hg

/-- Every event other than a successful upload preserves cleanliness: with no
columns loaded the mapping grid is not rendered, so no select can fire. -/
theorem step_clean_of_not_uploadOk (s : UIState) (e : Event)
    (he : isUploadOk e = false) (hv : validEvent s e = true)
    (hc : MappingClean s) : MappingClean (step s e) := by
  cases e with
  | upload r =>
      cases r with
      | ok d => simp [isUploadOk] at he
      | err m => exact hc
  | select f v =>
      exfalso
      simp [validEvent, hc.2.2.2.2] at hv
  | toggle k =>
      show MappingClean (step s (Event.toggle k))
      simp only [step]
      split <;> exact hc
  | analyze r =>
      cases r with
      | ok b => exact hc
      | err m => exact hc

/-- A successful upload from a clean state establishes the mapping-columns
invariant: each required field is auto-filled with an actual column or left
empty, and `resource` stays empty. -/
theorem step_upload_ok_good_of_clean (s : UIState) (d : UploadData)
    (hc : MappingClean s) :
    MappingGood (step s (Event.upload (FetchResult.ok d))) := by
  obtain ⟨h1, h2, h3, h4, -⟩ := hc
  refine ⟨?_, ?_, ?_, Or.inl ?_⟩
  · show jsOr s.mapping.case_id (jsOr (colAt d.columns 0) "") = "" ∨
      jsOr s.mapping.case_id (jsOr (colAt d.columns 0) "") ∈ d.columns
    rw [h1, jsOr_empty_left, jsOr_empty_right]
    exact colAt_eq_or_mem d.columns 0
  · show jsOr s.mapping.activity (jsOr (colAt d.columns 1) "") = "" ∨
      jsOr s.mapping.activity (jsOr (colAt d.columns 1) "") ∈ d.columns
    rw [h2, jsOr_empty_left, jsOr_empty_right]
    exact colAt_eq_or_mem d.columns 1
  · show jsOr s.mapping.timestamp (jsOr (colAt d.columns 2) "") = "" ∨
      jsOr s.mapping.timestamp (jsOr (colAt d.columns 2) "") ∈ d.columns
    rw [h3, jsOr_empty_left, jsOr_empty_right]
    exact colAt_eq_or_mem d.columns 2
  · show jsOr s.mapping.resource "" = ""
    rw [h4, jsOr_empty_right]

/-- Along a valid trace containing no successful upload, the mapping-columns
invariant is preserved. -/
theorem runFrom_good_no_upload :
    ∀ (t : List Event) (s : UIState), validFrom s t = true →
      t.countP isUploadOk = 0 → MappingGood s → MappingGood (runFrom s t)
  | [], _, _, _, hg => hg
  | e :: t, s, hv, hcount, hg => by
      rw [validFrom, Bool.and_eq_true] at hv
      obtain ⟨h1, h2⟩ := hv
      rw [List.countP_cons] at hcount
      have he : isUploadOk e = false := by
        cases hb : isUploadOk e with
        | false => rfl
        | true => rw [hb] at hcount; simp at hcount
      have ht : t.countP isUploadOk = 0 := by
        rw [he] at hcount
        simpa using hcount
      exact runFrom_good_no_upload t (step s e) h2 ht
        (step_good_of_not_uploadOk s e he h1 hg)

/-- Along a valid trace from a clean state with at most one successful upload,
the mapping-columns invariant holds at the end. -/
theorem runFrom_good_le_one_upload :
    ∀ (t : List Event) (s : UIState), validFrom s t = true →
      t.countP isUploadOk ≤ 1 → MappingClean s → MappingGood (runFrom s t)
  | [], s, _, _, hc => good_of_clean s hc
  | e :: t, s, hv, hcount, hc => by
      rw [validFrom, Bool.and_eq_true] at hv
      obtain ⟨h1, h2⟩ := hv
      rw [List.countP_cons] at hcount
      cases hb : isUploadOk e with
      | false =>
          have ht : t.countP isUploadOk ≤ 1 := by
            rw [hb] at hcount
            simpa using hcount
          exact runFrom_good_le_one_upload t (step s e) h2 ht
            (step_clean_of_not_uploadOk s e hb h1 hc)
      | true =>
          have ht : t.countP isUploadOk = 0 := by
            rw [hb, if_pos rfl] at hcount
            omega
          cases e with
          | upload r =>
              cases r with
              | ok d =>
                  exact runFrom_good_no_upload t _ h2 ht
                    (step_upload_ok_good_of_clean s d hc)
              | err m => simp [isUploadOk] at hb
          | select f v => simp [isUploadOk] at hb
          | toggle k => simp [isUploadOk] at hb
          | analyze r => simp [isUploadOk] at hb

/-- C2 counterexample: after a second successful upload whose dataset has
entirely different columns, the analyze action is still enabled but the kept
`case_id` names no column of the dataset identified by the submitted
`fileId`. -/
theorem second_upload_stale_mapping_cex :
    validFrom initState secondUploadTrace = true ∧
    (runFrom initState secondUploadTrace).fileId = "id2" ∧
    canAnalyze (runFrom initState secondUploadTrace) = true ∧
    (runFrom initState secondUploadTrace).mapping.case_id = "A" ∧
    (runFrom initState secondUploadTrace).mapping.case_id ∉
      (runFrom initState secondUploadTrace).columns := by
  decide

/-- C2 (amended): whenever an analyze request can be issued in a state reached
with at most one successful upload, every non-empty field of the submitted
mapping names a real column of the dataset identified by the submitted
`fileId`; after a second upload replaces the dataset, fields kept from before
may name columns of the replaced dataset instead. -/
theorem single_upload_mapping_names_columns (t : List Event)
    (hv : validFrom initState t = true)
    (hcount : t.countP isUploadOk ≤ 1)
    (hca : canAnalyze (runFrom initState t) = true) :
    (runFrom initState t).mapping.case_id ∈ (runFrom initState t).columns ∧
    (runFrom initState t).mapping.activity ∈ (runFrom initState t).columns ∧
    (runFrom initState t).mapping.timestamp ∈ (runFrom initState t).columns ∧
    ((runFrom initState t).mapping.resource ≠ "" →
      (runFrom initState t).mapping.resource ∈ (runFrom initState t).columns) := by
  have hg := runFrom_good_le_one_upload t initState hv hcount
    ⟨rfl, rfl, rfl, rfl, rfl⟩
  have hch := (canAnalyze_char _).mp hca
  exact ⟨hg.1.resolve_left hch.2.1, hg.2.1.resolve_left hch.2.2.1,
    hg.2.2.1.resolve_left hch.2.2.2.1, fun hr => hg.2.2.2.resolve_left hr⟩

/-- C2 witness: after one successful upload the auto-filled `case_id` is a
column of the loaded dataset. -/
theorem single_upload_mapping_names_columns_witness :
    (runFrom initState oneUploadTrace).mapping.case_id ∈
      (runFrom initState oneUploadTrace).columns :=
  (single_upload_mapping_names_columns oneUploadTrace (by decide) (by decide)
    (by decide)).1

/-- C3 counterexample: a reachable state in which the analyze action is
enabled while `case_id` and `activity` hold the same column name — the UI
never enforces distinctness of the mapped columns. -/
theorem duplicate_mapping_enabled_cex :
    validFrom initState duplicateSelectTrace = true ∧
    canAnalyze (runFrom initState duplicateSelectTrace) = true ∧
    (runFrom initState duplicateSelectTrace).mapping.case_id = "A" ∧
    (runFrom initState duplicateSelectTrace).mapping.case_id =
      (runFrom initState duplicateSelectTrace).mapping.activity := by
  decide

/-- C3 (amended): every mapping under which an analyze request can be issued
has `case_id`, `activity` and `timestamp` non-empty, but these fields (and
`resource`) need not be mutually distinct: the enablement check requires only
non-emptiness, and two fields may hold the same column name. -/
theorem enabled_mapping_required_nonempty (t : List Event)
    (_hv : validFrom initState t = true)
    (hca : canAnalyze (runFrom initState t) = true) :
    (runFrom initState t).mapping.case_id ≠ "" ∧
    (runFrom initState t).mapping.activity ≠ "" ∧
    (runFrom initState t).mapping.timestamp ≠ "" := by
  have h := (canAnalyze_char _).mp hca
  exact ⟨h.2.1, h.2.2.1, h.2.2.2.1⟩

/-- C3 witness: after one successful upload the enabled mapping has a
non-empty `case_id`. -/
theorem enabled_mapping_required_nonempty_witness :
    (runFrom initState oneUploadTrace).mapping.case_id ≠ "" :=
  (enabled_mapping_required_nonempty oneUploadTrace (by decide) (by decide)).1

/-- One step preserves distinctness of the selected analyses and their
containment in the registry names. -/
theorem step_analyses_invariant (s : UIState) (e : Event)
    (hv : validEvent s e = true)
    (hn : s.analyses.Nodup) (hr : ∀ a ∈ s.analyses, a ∈ registryNames) :
    (step s e).analyses.Nodup ∧ ∀ a ∈ (step s e).analyses, a ∈ registryNames := by
  cases e with
  | upload r =>
      cases r with
      | ok d => exact ⟨hn, hr⟩
      | err m => exact ⟨hn, hr⟩
  | select f v => exact ⟨hn, hr⟩
  | analyze r =>
      cases r with
      | ok b => exact ⟨hn, hr⟩
      | err m => exact ⟨hn, hr⟩
  | toggle k =>
      have hk : k ∈ registryNames := by
        simpa [validEvent] using hv
      show (step s (Event.toggle k)).analyses.Nodup ∧ _
      simp only [step]
      split
      next hmem =>
        constructor
        · exact hn.filter _
        · intro a ha
          exact hr a (List.mem_of_mem_filter ha)
      next hmem =>
        constructor
        · rw [List.nodup_append]
          refine ⟨hn, List.nodup_singleton k, ?_⟩
          intro a ha hak
          rw [List.mem_singleton] at hak
          subst hak
          exact hmem ha
        · intro a ha
          rcases List.mem_append.mp ha with h | h
          · exact hr a h
          · rw [List.mem_singleton] at h
            subst h
            exact hk

/-- Along a valid trace, the selected analyses stay distinct and drawn from
the registry names. -/
theorem runFrom_analyses_invariant :
    ∀ (t : List Event) (s : UIState), validFrom s t = true →
      s.analyses.Nodup → (∀ a ∈ s.analyses, a ∈ registryNames) →
      (runFrom s t).analyses.Nodup ∧ ∀ a ∈ (runFrom s t).analyses, a ∈ registryNames
  | [], _, _, hn, hr => ⟨hn, hr⟩
  | e :: t, s, hv, hn, hr => by
      rw [validFrom, Bool.and_eq_true] at hv
      obtain ⟨h1, h2⟩ := hv
      have hstep := step_analyses_invariant s e h1 hn hr
      exact runFrom_analyses_invariant t (step s e) h2 hstep.1 hstep.2

/-- C4: in every state reached from the initial state by a sequence of
analysis-checkbox toggle events, the analyses list contains pairwise-distinct
names, each drawn from the registry names `discovery`, `statistics`,
`variants`. -/
theorem toggle_reachable_analyses_distinct_registry (ks : List String)
    (hv : validFrom initState (List.map Event.toggle ks) = true) :
    (runFrom initState (List.map Event.toggle ks)).analyses.Nodup ∧
    ∀ a ∈ (runFrom initState (List.map Event.toggle ks)).analyses,
      a ∈ registryNames :=
  runFrom_analyses_invariant (List.map Event.toggle ks) initState hv
    (by decide) (by decide)

/-- C4 witness: after toggling `discovery` off, the remaining analyses are
distinct registry names. -/
theorem toggle_reachable_analyses_distinct_registry_witness :
    (runFrom initState (List.map Event.toggle ["discovery"])).analyses.Nodup :=
  (toggle_reachable_analyses_distinct_registry ["discovery"] (by decide)).1

/-! ### Variants ordering and truncation -/

/-- The backend variants result has at most 20 entries. -/
theorem variantsTopIdx_length_le (log : VLog) : (variantsTopIdx log).length ≤ 20 := by
  unfold variantsTopIdx
  rw [List.length_take]
  exact Nat.min_le_left _ _

/-- The backend variants result is strictly ordered: descending case count,
ties strictly by first-observed index. -/
theorem variantsTopIdx_pairwise (log : VLog) :
    List.Pairwise vlt (variantsTopIdx log) := by
  have hs : List.Sorted vle (List.insertionSort vle (variantEntries log).enum) :=
    List.sorted_insertionSort vle _
  have hperm : (List.insertionSort vle (variantEntries log).enum).Perm
      (variantEntries log).enum :=
    List.perm_insertionSort vle _
  have hnd : ((List.insertionSort vle (variantEntries log).enum).map Prod.fst).Nodup :=
    ((hperm.map Prod.fst).nodup_iff).mpr (List.nodup_enum_map_fst _)
  have hpne : List.Pairwise (fun a b => a.1 ≠ b.1)
      (List.insertionSort vle (variantEntries log).enum) :=
    List.pairwise_map.mp hnd
  have hstrict : List.Pairwise vlt (List.insertionSort vle (variantEntries log).enum) := by
    refine (hs.and hpne).imp ?_
    intro a b hab
    obtain ⟨h1, h2⟩ := hab
    unfold vle at h1
    unfold vlt
    rcases h1 with h1 | ⟨h1, h1le⟩
    · exact Or.inl h1
    · exact Or.inr ⟨h1, lt_of_le_of_ne h1le h2⟩
  exact hstrict.sublist (List.take_sublist _ _)

/-- C5 (amended): the backend variants result (modelled from the spec) pairs
each variant with its case count, is ordered by descending case count with
ties broken by first-observed order, and is truncated to at most 20 entries;
the Top variants card, however, renders only the first 5 of those entries
(`result.variants.slice(0, 5)`), the full list remaining in the JSON
details. -/
theorem variants_sorted_bounded_rendered_five (log : VLog) :
    (backendVariants log).length ≤ 20 ∧
    List.Pairwise vlt (variantsTopIdx log) ∧
    renderedVariants (backendVariants log) = (backendVariants log).take 5 := by
  refine ⟨?_, variantsTopIdx_pairwise log, rfl⟩
  unfold backendVariants
  rw [List.length_map]
  exact variantsTopIdx_length_le log

/-- C5 counterexample: on a log with six distinct variants the backend result
keeps all six entries (the top-20 truncation drops nothing), yet the rendered
Top variants list has only five entries — the list presented to the user is
not the top-20-truncated variants output. -/
theorem variants_rendered_truncation_cex :
    (backendVariants log6).length = 6 ∧
    (renderedVariants (backendVariants log6)).length = 5 ∧
    renderedVariants (backendVariants log6) ≠ backendVariants log6 := by
  decide

/-! ### Orchestrator failure isolation -/

/-- C7: if one analysis in a multi-analysis request fails while another
succeeds, the response still contains the successful result of every other
requested analysis, and the overall status is `partial` — a failing analysis
never prevents the remaining requested analyses from returning. -/
theorem analysis_failure_isolation_status (run1 : String → AnalysisOutcome)
    (names : List String)
    (hfail : ∃ n ∈ names, (run1 n).isOk = false)
    (hsucc : ∃ n ∈ names, (run1 n).isOk = true) :
    overallStatus (orchestrate run1 names) = "partial" ∧
    ∀ k ∈ names, ∀ p, run1 k = AnalysisOutcome.ok p →
      (k, AnalysisOutcome.ok p) ∈ orchestrate run1 names := by
  obtain ⟨nf, hnf, hf⟩ := hfail
  obtain ⟨ns, hns, hs⟩ := hsucc
  constructor
  · unfold overallStatus
    rw [if_neg, if_pos]
    · rw [List.any_eq_true]
      exact ⟨(ns, run1 ns), List.mem_map_of_mem _ hns, hs⟩
    · intro hall
      rw [List.all_eq_true] at hall
      have := hall (nf, run1 nf) (List.mem_map_of_mem _ hnf)
      rw [hf] at this
      exact Bool.noConfusion this
  · intro k hk p hp
    have hmem : (k, run1 k) ∈ orchestrate run1 names := List.mem_map_of_mem _ hk
    rwa [hp] at hmem

/-- C7 witness: with `statistics` failing and the other two analyses
succeeding, the status is `partial` and `discovery` still returns its
payload. -/
theorem analysis_failure_isolation_status_witness :
    overallStatus (orchestrate run1W registryNames) = "partial" ∧
    ("discovery", AnalysisOutcome.ok "res") ∈ orchestrate run1W registryNames := by
  have h := analysis_failure_isolation_status run1W registryNames
    ⟨"statistics", by decide, by decide⟩ ⟨"discovery", by decide, by decide⟩
  exact ⟨h.1, h.2 "discovery" (by decide) "res" (by decide)⟩

end PMStudio
